import Mathlib

set_option maxHeartbeats 1000000

namespace TapSailthru

/-!
Shallow embedding of `tap_sailthru/streams.py` (streams of the Sailthru tap).

Modelling conventions:

* A record is an ordered field mapping with string keys and string values,
  mirroring the Python dicts produced by `csv.DictReader` (all values are
  strings).  Python dicts have distinct keys; the association lists used here
  are produced key-distinct by the code paths that build them.
* Timestamps are modelled as natural numbers; `pendulum.parse` is modelled by
  an arbitrary parameter `parse : String → Option Nat` (`none` corresponds to
  a `ValueError` / `ParserError`), and `pendulum.yesterday('UTC')` by a fixed
  natural number: the process-start cutoff `ListMemberStream.signup_dt` and
  the fallback default computed inside `_sync_records` both evaluate
  `pendulum.yesterday('UTC')` and are assumed to coincide (the sync does not
  cross a UTC midnight), so a single parameter `yesterday` stands for both.
* Fallible Python code (`raise` / uncaught exceptions) is modelled with
  `Except`; a `try/except` that swallows an exception simply takes the
  handler's value.
* Unbounded `while` loops are modelled with an explicit fuel argument; a
  distinguished out-of-fuel result marks a loop that has not terminated
  within the given bound.
-/

/-- An ordered field mapping (a Python dict row with string keys/values). -/
abbrev Record := List (String × String)

/-- The `record.get(k)` / `k in record` lookup: first binding of key `k`. -/
def lookupField (r : Record) (k : String) : Option String :=
  match r.find? (fun kv => kv.1 == k) with
  | some kv => some kv.2
  | none => none

/-- Python `row.update(ps)`: existing keys keep their position and receive the
new value; keys not yet present are appended in `ps` order (`ps` is a dict,
so its keys are distinct). -/
def updateRecord (r : Record) (ps : List (String × String)) : Record :=
  r.map (fun kv =>
    match lookupField ps kv.1 with
    | some w => (kv.1, w)
    | none => kv)
  ++ ps.filter (fun kv => (lookupField r kv.1).isNone)

/-- Lines 531–534 of `_sync_records`: `for key, val in state_partition_context:
if key not in record: record[key] = val` — append the context bindings whose
keys the record does not already define. -/
def mergeContextInto (spc : List (String × String)) (r : Record) : Record :=
  r ++ spc.filter (fun kv => (lookupField r kv.1).isNone)

/-! ## Signup-timestamp fallback chain (`ListMemberStream._sync_records`, lines 536–554)

The Python block sits inside `try: ... except ValueError: ... except KeyError:`
where both handlers assign `pendulum.yesterday('UTC')`.  `record['k']` on an
absent key raises `KeyError` (→ default); a failed `pendulum.parse` raises a
`ValueError` subclass (→ default). -/

/-- Direct transcription of lines 537–554: the value bound to `list_signup`.
`parse v |>.getD yest` renders "parse, defaulting to yesterday on ValueError";
a `none` lookup where Python subscripts renders the KeyError default. -/
def deriveListSignup (parse : String → Option Nat) (yest : Nat) (r : Record) : Nat :=
  match lookupField r "list_signup" with
  | some v =>
    if v.length > 0 then (parse v).getD yest
    else
      match lookupField r "profile_created_date" with
      | none => yest
      | some p =>
        if p.length > 0 then (parse p).getD yest
        else
          match lookupField r "signup_date" with
          | none => yest
          | some s => (parse s).getD yest
  | none =>
    match lookupField r "profile_created_date" with
    | none => yest
    | some p =>
      if p.length > 0 then (parse p).getD yest
      else
        match lookupField r "signup_date" with
        | none => yest
        | some s => (parse s).getD yest

/-- True when key `k` is present with a non-empty value. -/
def nonEmptyField (r : Record) (k : String) : Bool :=
  match lookupField r k with
  | some v => v.length > 0
  | none => false

/-- Modelled from the spec's words (claim C7): "the explicit signup field if
present and non-empty; otherwise the profile-creation field if present and
non-empty; otherwise the generic signup-date field; and if all are absent or
parsing fails, it defaults to the cutoff threshold itself". -/
def deriveListSignupClaim (parse : String → Option Nat) (yest : Nat) (r : Record) : Nat :=
  if nonEmptyField r "list_signup" then
    (parse ((lookupField r "list_signup").getD "")).getD yest
  else if nonEmptyField r "profile_created_date" then
    (parse ((lookupField r "profile_created_date").getD "")).getD yest
  else
    match lookupField r "signup_date" with
    | some s => (parse s).getD yest
    | none => yest

/-- The amended fallback chain (what the code actually computes): the explicit
signup field if present and non-empty; otherwise, if the profile-creation
field is absent the default is used directly (the generic signup-date field is
consulted only when the profile-creation field is present but empty). -/
def deriveListSignupAmended (parse : String → Option Nat) (yest : Nat) (r : Record) : Nat :=
  if nonEmptyField r "list_signup" then
    (parse ((lookupField r "list_signup").getD "")).getD yest
  else
    match lookupField r "profile_created_date" with
    | none => yest
    | some p =>
      if p.length > 0 then (parse p).getD yest
      else
        match lookupField r "signup_date" with
        | none => yest
        | some s => (parse s).getD yest

/-! ## Resilient stream decoder (`SailthruJobStream.process_job_csv`, lines 66–102)

One transport attempt delivers the rows the `csv.DictReader` produces before
the connection is (possibly) truncated.  `transport : Nat → Attempt` gives the
outcome the k-th from-scratch fetch of the export URL would have.

The Python method is a generator function decorated with
`@backoff.on_exception(backoff.expo, ChunkedEncodingError, max_tries=3, factor=2)`.
Two facts of the source fix the model:

1. the body's `try: for row in reader: ... except ChunkedEncodingError:` wraps
   the whole decoding loop, so a mid-stream `ChunkedEncodingError` is caught
   inside the generator, logged, and iteration simply ends — the exception
   never escapes to any caller;
2. the decorator wraps the *call* of the generator function, which only
   creates the generator object; the body (including `requests.get`) runs
   during iteration by the consumer, outside the decorator's `try`.  Hence no
   `ChunkedEncodingError` is ever visible to `backoff` and no retry fetch is
   issued: only attempt 0 of the transport is consumed. -/

/-- One from-scratch fetch of the export file: the rows of the decoded body
and, when the chunked transfer is truncated, the number of rows decoded
before the `ChunkedEncodingError` is raised. -/
structure Attempt where
  fullRows : List Record
  truncAfter : Option Nat
deriving DecidableEq

/-- The rows the csv reader produces from one attempt before the transfer
(possibly) breaks. -/
def Attempt.delivered (a : Attempt) : List Record :=
  match a.truncAfter with
  | none => a.fullRows
  | some k => a.fullRows.take k

/-- The `process_job_csv`: each yielded row is `row.update(parent_params)` then
`post_process` (the latter only for the `list_members` stream; `post := id`
otherwise).  Per the analysis above, the internal handler ends iteration on
truncation without raising, and the decorator never triggers a second
attempt. -/
def process_job_csv (transport : Nat → Attempt) (parentParams : List (String × String))
    (post : Record → Record) : List Record :=
  ((transport 0).delivered).map (fun r => post (updateRecord r parentParams))

/-- Modelled from the spec's words (claim C2): "the whole fetch is retried
from scratch up to 3 attempts"; a non-truncated attempt yields its full rows,
and when retries are exhausted the rows decoded before the last attempt's
truncation are yielded. -/
def process_job_csv_claim (transport : Nat → Attempt) (parentParams : List (String × String))
    (post : Record → Record) : List Record :=
  if (transport 0).truncAfter = none then
    ((transport 0).fullRows).map (fun r => post (updateRecord r parentParams))
  else if (transport 1).truncAfter = none then
    ((transport 1).fullRows).map (fun r => post (updateRecord r parentParams))
  else
    ((transport 2).delivered).map (fun r => post (updateRecord r parentParams))

/-! ## Job polling (`SailthruJobStream.get_job_url`, lines 35–64)

The i-th iteration of the `while status != 'completed'` loop issues the i-th
`/job` poll; `elapsed i` is the value of `(pendulum.now() - job_start_time).seconds`
observed right after the i-th poll.  The fixed `time.sleep(1)` between polls
is real-time behaviour and is abstracted into `elapsed`. -/

/-- Body of one `/job` poll response: `status` and (once completed) the
`export_url`. -/
structure PollResp where
  status : String
  export_url : Option String
deriving DecidableEq

/-- The polling environment: the response of the i-th poll and the elapsed
wall-clock seconds observed right after it. -/
structure PollEnv where
  poll : Nat → PollResp
  elapsed : Nat → Nat

/-- Outcome of `get_job_url`, with the `logger.info` status log trail. -/
inductive PollOutcome where
  /-- loop exit `status == 'completed'`: return `response.get('export_url')`. -/
  | completed (url : Option String)
  /-- The `raise SailthruJobTimeoutError`, the critical log carrying the last
  observed status. -/
  | timedOut (lastStatus : String)
  /-- loop still running after the given fuel. -/
  | outOfFuel
deriving DecidableEq

/-- The polling loop.  `i` is the index of the next poll, `status` the status
from the previous poll (`''` initially), `lastUrl` the previous response's
`export_url` (the value returned at loop exit).  Returns the list of statuses
logged by `logger.info` together with the outcome. -/
def getJobUrlLoop (env : PollEnv) (timeout : Nat) :
    Nat → Nat → String → Option String → List String × PollOutcome
  | 0, _, _, _ => ([], .outOfFuel)
  | fuel + 1, i, status, lastUrl =>
    if status = "completed" then ([], .completed lastUrl)
    else
      let r := env.poll i
      if env.elapsed i > timeout then ([r.status], .timedOut r.status)
      else
        let rest := getJobUrlLoop env timeout fuel (i + 1) r.status r.export_url
        (r.status :: rest.1, rest.2)

/-- The `get_job_url(client, job_id, timeout=600)` on a given polling environment
(fuel-bounded). -/
def get_job_url (env : PollEnv) (timeout fuel : Nat) : List String × PollOutcome :=
  getJobUrlLoop env timeout fuel 0 "" none

/-! ## Paginated fetch (`UsersStream.request_records`, lines 653–700)

The loop issues the same request each iteration (the payload is prepared once,
before the loop); `pages i` is the outcome of the i-th issue: either a
`SailthruClientError` (modelled as `Except.error ()`) or a response body.
`get_next_page_token` lives in `tap_sailthru/client.py`, which is not under
`src/`; per the spec it extracts the next-page token from the response, so it
is modelled as the `nextToken` component of the response. -/

/-- One parsed page: the records `parse_response` yields and the token
`get_next_page_token` extracts from the response. -/
structure PageResp where
  records : List Record
  nextToken : Option String
deriving DecidableEq

/-- Outcome of the `request_records` loop. -/
inductive FetchOutcome where
  /-- The `finished = not next_page_token` ended the loop normally. -/
  | finished
  /-- The `raise RuntimeError` — two consecutive pagination tokens identical
  (`RuntimeError` is not a `SailthruClientError`, so the handler does not
  catch it and it propagates). -/
  | loopError
  /-- loop still running after the given fuel. -/
  | outOfFuel
deriving DecidableEq

/-- The `while not finished` loop of `request_records`.  `tok` is the current
`next_page_token` variable (None initially).  A `SailthruClientError` from the
request is caught by the `except` handler, logged, and — the handler body
being `pass` — the loop repeats with `finished` and `next_page_token`
untouched.  Records of a page are yielded (collected) before its token is
compared, matching generator semantics. -/
def requestRecordsLoop (pages : Nat → Except Unit PageResp) :
    Nat → Nat → Option String → List Record × FetchOutcome
  | 0, _, _ => ([], .outOfFuel)
  | fuel + 1, i, tok =>
    match pages i with
    | .error _ => requestRecordsLoop pages fuel (i + 1) tok
    | .ok pg =>
      if pg.nextToken.isSome ∧ pg.nextToken = tok then (pg.records, .loopError)
      else if pg.nextToken = none then (pg.records, .finished)
      else
        let rest := requestRecordsLoop pages fuel (i + 1) pg.nextToken
        (pg.records ++ rest.1, rest.2)

/-- The `request_records(context)` on a given page environment (fuel-bounded). -/
def request_records (pages : Nat → Except Unit PageResp) (fuel : Nat) :
    List Record × FetchOutcome :=
  requestRecordsLoop pages fuel 0 none

/-- The chain condition under which the loop raises the pagination-loop error
at the (i+j)-th page: all pages up to there succeed, every extracted token is
present, tokens differ from their predecessor until the (i+j)-th token repeats
the prior one. -/
def loopsAt (pages : Nat → Except Unit PageResp) : Nat → Option String → Nat → Bool
  | i, tok, 0 =>
    match pages i with
    | .ok pg => pg.nextToken.isSome && pg.nextToken == tok
    | .error _ => false
  | i, tok, j + 1 =>
    match pages i with
    | .ok pg => pg.nextToken.isSome && (pg.nextToken != tok) &&
        loopsAt pages (i + 1) pg.nextToken j
    | .error _ => false

/-- The chain condition under which the loop terminates normally after the
(i+j)-th page: all pages succeed, tokens are present and fresh until the
(i+j)-th page returns no token. -/
def finishesAt (pages : Nat → Except Unit PageResp) : Nat → Option String → Nat → Bool
  | i, _, 0 =>
    match pages i with
    | .ok pg => pg.nextToken == none
    | .error _ => false
  | i, tok, j + 1 =>
    match pages i with
    | .ok pg => pg.nextToken.isSome && (pg.nextToken != tok) &&
        finishesAt pages (i + 1) pg.nextToken j
    | .error _ => false

/-- Records of pages `i, i+1, …, i+n-1` in order (a failed page contributes
nothing). -/
def pageRecords (pages : Nat → Except Unit PageResp) : Nat → Nat → List Record
  | _, 0 => []
  | i, n + 1 =>
    (match pages i with
     | .ok pg => pg.records
     | .error _ => []) ++ pageRecords pages (i + 1) n

/-! ## Child-context derivation (`ListMemberStream.get_child_context`, lines 481–493) -/

/-- Errors that can propagate out of the modelled sync. -/
inductive TapError where
  /-- The `InvalidStreamSortException` from bookmark advancement (re-raised after
  `log_sort_error`). -/
  | invalidSort
  /-- the configured maximum record limit was hit (`_check_max_record_limit`). -/
  | maxRecords
  /-- an uncaught Python `KeyError` (missing required record field). -/
  | keyError
  /-- The `SailthruJobTimeoutError` raised by `get_job_url` and not caught. -/
  | jobTimeout
deriving DecidableEq

/-- The child context `get_child_context` builds for the users stream. -/
structure ChildContext where
  list_id : String
  user_id : String
  list_name : Option String
deriving DecidableEq

/-- The `get_child_context(record, context)`: subscripting `record["List Id"]` and
`record["Profile Id"]` is unprotected, so a missing key raises `KeyError`;
the `"List Name"` / `"Name"` lookups are wrapped in `try/except KeyError`
with a final `pass`, so they only optionally populate `list_name`.  The
`context` argument is ignored by the Python body. -/
def get_child_context (record : Record) : Except TapError ChildContext :=
  match lookupField record "List Id", lookupField record "Profile Id" with
  | some lid, some uid =>
    .ok { list_id := lid, user_id := uid,
          list_name :=
            match lookupField record "List Name" with
            | some n => some n
            | none => lookupField record "Name" }
  | _, _ => .error .keyError

/-- Both unprotected subscripts of `get_child_context` succeed. -/
def hasRequiredFields (r : Record) : Bool :=
  (lookupField r "List Id").isSome && (lookupField r "Profile Id").isSome

/-! ## The incremental sync loop (`ListMemberStream._sync_records`, lines 495–587)

Several helpers called by `_sync_records` belong to the singer-sdk library
(outside this repository); they are modelled from the spec:

* `_increment_stream_state` — "Advance the bookmark using the record's
  replication-key value; if the new value is less than the current bookmark
  value, this is a fatal OutOfOrderReplicationKeyError"; the SDK's reading of
  the record's replication-key value is abstracted as `repValue : Record → Nat`
  (applied to the record after context merging, as at line 563);
* `_check_max_record_limit` — "Total records emitted across the whole sync
  cannot exceed a configured maximum; exceeding it aborts the sync": called
  with the count of records already processed, it aborts as soon as admitting
  one more record would exceed the maximum;
* `_write_record_message`, `_write_state_message`,
  `_write_starting_replication_value`, `_sync_children`,
  `finalize_state_progress_markers` — modelled as emitted events;
* `self.selected`, `STATE_MSG_FREQUENCY` — configuration values.

For `ListMemberStream` no `state_partitioning_keys` are declared, so
`_get_state_partition_context(context)` is the context itself and the
`current_context == state_partition_context` guard at line 578 holds: the
per-partition finalize event is emitted after each completed context. -/

/-- Observable effects of the sync loop, in emission order. -/
inductive SyncEvent where
  /-- The `_write_starting_replication_value(current_context)` (line 517). -/
  | startingReplicationValue
  /-- The `self._sync_children(child_context)` (line 556). -/
  | childSync (ctx : ChildContext)
  /-- The `self._write_state_message()` (interim at line 560, final at line 587). -/
  | stateMessage
  /-- The `self._write_record_message(record)` (line 561). -/
  | recordMessage (r : Record)
  /-- The `finalize_state_progress_markers(state)` for the context (line 580). -/
  | finalizePartition
  /-- The `finalize_state_progress_markers(self.stream_state)` (line 584). -/
  | finalizeStream
  /-- The `self._write_record_count_log(record_count, context)` (line 585). -/
  | recordCountLog (n : Nat)
deriving DecidableEq

/-- Configuration of one `ListMemberStream._sync_records` run. -/
structure SyncConfig where
  /-- The `self.selected`. -/
  selected : Bool
  /-- The `self.selectively_sync_children` (True on `ListMemberStream`). -/
  selectivelySyncChildren : Bool
  /-- The `pendulum.parse` on the timestamp strings of this run. -/
  parse : String → Option Nat
  /-- The `pendulum.yesterday('UTC')`: both the class-level cutoff `signup_dt`
  and the in-loop fallback default. -/
  yesterday : Nat
  /-- the SDK's reading of a record's replication-key value, used for
  bookmark ordering (modelled from the spec). -/
  repValue : Record → Nat
  /-- The `state_partition_context` merged into each record (lines 531–534). -/
  statePartitionContext : List (String × String)
  /-- The `self.STATE_MSG_FREQUENCY`. -/
  stateMsgFrequency : Nat
  /-- the configured maximum record count, if any. -/
  maxRecordLimit : Option Nat

/-- Loop-carried counters and the context's bookmark. -/
structure LoopState where
  recordCount : Nat
  partitionRecordCount : Nat
  bookmark : Option Nat
deriving DecidableEq

/-- Modelled from the spec: `_check_max_record_limit(record_count)` aborts
when admitting one more record would exceed the configured maximum. -/
def limitHit (cfg : SyncConfig) (recordCount : Nat) : Bool :=
  match cfg.maxRecordLimit with
  | some l => recordCount ≥ l
  | none => false

/-- One iteration of the record loop of `_sync_records` (lines 522–577) on a
single raw record, returning the events it emits and either the next loop
state or the propagated error.  The steps, in source order:
child-context derivation (may raise `KeyError`), context merging, signup
derivation, conditional child sync, record-limit check, and — only if the
stream is selected — interim state message, record message and bookmark
advancement (which may raise the sort error). -/
def syncStep (cfg : SyncConfig) (st : LoopState) (record : Record) :
    List SyncEvent × Except TapError LoopState :=
  match get_child_context record with
  | .error e => ([], .error e)
  | .ok childCtx =>
    let record := mergeContextInto cfg.statePartitionContext record
    let listSignup := deriveListSignup cfg.parse cfg.yesterday record
    let childEvs : List SyncEvent :=
      if cfg.selectivelySyncChildren = true ∧ listSignup > cfg.yesterday then
        [.childSync childCtx]
      else []
    if limitHit cfg st.recordCount then (childEvs, .error .maxRecords)
    else if cfg.selected then
      let stateEvs : List SyncEvent :=
        if ((st.recordCount : Int) - 1) % (cfg.stateMsgFrequency : Int) = 0 then
          [.stateMessage]
        else []
      let emitEvs := childEvs ++ stateEvs ++ [.recordMessage record]
      let v := cfg.repValue record
      match st.bookmark with
      | some b =>
        if v < b then (emitEvs, .error .invalidSort)
        else (emitEvs, .ok ⟨st.recordCount + 1, st.partitionRecordCount + 1, some v⟩)
      | none => (emitEvs, .ok ⟨st.recordCount + 1, st.partitionRecordCount + 1, some v⟩)
    else
      (childEvs, .ok ⟨st.recordCount + 1, st.partitionRecordCount + 1, st.bookmark⟩)

/-- The record loop over the raw records of one context. -/
def runRecords (cfg : SyncConfig) (st : LoopState) :
    List Record → List SyncEvent × Except TapError LoopState
  | [] => ([], .ok st)
  | r :: rs =>
    match syncStep cfg st r with
    | (evs, .ok st') =>
      let rest := runRecords cfg st' rs
      (evs ++ rest.1, rest.2)
    | (evs, .error e) => (evs, .error e)

/-- The records a record message carries, in emission order. -/
def emittedRecords (evs : List SyncEvent) : List Record :=
  evs.filterMap (fun e =>
    match e with
    | .recordMessage r => some r
    | _ => none)

/-- The context loop of `_sync_records` (lines 512–580).  Each context carries
its own bookmark (loaded by `get_context_state`) and a raw record source: the
`get_records` generator either yields a record list or raises while being
iterated (e.g. an uncaught `SailthruJobTimeoutError`).  `record_count` is
global across contexts; `partition_record_count` restarts at 0. -/
def runContexts (cfg : SyncConfig) (recordCount : Nat) :
    List (Option Nat × Except TapError (List Record)) →
    List SyncEvent × Except TapError Nat
  | [] => ([], .ok recordCount)
  | (bm, src) :: rest =>
    match src with
    | .error e => ([.startingReplicationValue], .error e)
    | .ok records =>
      match runRecords cfg ⟨recordCount, 0, bm⟩ records with
      | (evs, .error e) => (.startingReplicationValue :: evs, .error e)
      | (evs, .ok st') =>
        let more := runContexts cfg st'.recordCount rest
        (.startingReplicationValue :: evs ++ [.finalizePartition] ++ more.1, more.2)

/-- The `ListMemberStream._sync_records(context)` over its context list:
run the contexts, then — when no single context was supplied — finalize the
whole-stream state, and in every case log the record count and emit the final
state message (lines 581–587). -/
def listMemberSyncRecords (cfg : SyncConfig)
    (contexts : List (Option Nat × Except TapError (List Record)))
    (contextProvided : Bool) : List SyncEvent × Except TapError Nat :=
  match runContexts cfg 0 contexts with
  | (evs, .error e) => (evs, .error e)
  | (evs, .ok n) =>
    (evs ++ (if contextProvided then [] else [.finalizeStream]) ++
      [.recordCountLog n, .stateMessage], .ok n)

/-! ## `ListMemberStream.get_records` (lines 589–616)

After submitting the export job, `get_job_url` is awaited inside
`try: ... except MaxRetryError:` — only the urllib3 `MaxRetryError` is
caught (logged, `return` ends the generator with no records);
`SailthruJobTimeoutError` is *not* caught and propagates to the iteration in
`_sync_records`.  On success the export file is decoded by
`process_job_csv` with the list parent parameters. -/

/-- Failure modes of awaiting the export job. -/
inductive JobFailure where
  /-- The `SailthruJobTimeoutError` from `get_job_url`. -/
  | timeout
  /-- The `urllib3.exceptions.MaxRetryError` during polling. -/
  | maxRetry
deriving DecidableEq

/-- The `ListMemberStream.get_records(context)`: `jobResult` abstracts
`get_job_url` (either the export URL or a failure); `transport url` is the
export file transport the decoder consumes. -/
def listMemberGetRecords (jobResult : Except JobFailure String)
    (transport : String → Nat → Attempt) (post : Record → Record)
    (parentParams : List (String × String)) : Except TapError (List Record) :=
  match jobResult with
  | .error .maxRetry => .ok []
  | .error .timeout => .error .jobTimeout
  | .ok url => .ok (process_job_csv (transport url) parentParams post)

/-! ## Bookmark-ordering helper predicates (for the claims about `_sync_records`) -/

/-- The record (after context merging) whose replication-key value the SDK
reads. -/
def mergedRecord (cfg : SyncConfig) (r : Record) : Record :=
  mergeContextInto cfg.statePartitionContext r

/-- The record's replication-key value regresses below the current bookmark
(the condition under which bookmark advancement raises). -/
def violates (cfg : SyncConfig) (bm : Option Nat) (r : Record) : Bool :=
  match bm with
  | some b => cfg.repValue (mergedRecord cfg r) < b
  | none => false

/-- No ordering violation occurs while the records advance the bookmark in
sequence from `bm`. -/
def noViolation (cfg : SyncConfig) : Option Nat → List Record → Bool
  | _, [] => true
  | bm, r :: rs =>
    !(violates cfg bm r) && noViolation cfg (some (cfg.repValue (mergedRecord cfg r))) rs

/-- The bookmark after the records advance it in sequence from `bm`. -/
def bookmarkAfter (cfg : SyncConfig) : Option Nat → List Record → Option Nat
  | bm, [] => bm
  | _, r :: rs => bookmarkAfter cfg (some (cfg.repValue (mergedRecord cfg r))) rs

/-! ## Concrete fixtures used by witnesses and counterexamples -/

/-- A small concrete timestamp parser for fixtures: a non-empty digit string
parses to the natural number it denotes, anything else fails. -/
def parseNat (s : String) : Option Nat :=
  if s.data.isEmpty then none
  else
    s.data.foldl
      (fun acc c => acc.bind fun n => if c.isDigit then some (10 * n + (c.toNat - 48)) else none)
      (some 0)

/-- A one-field csv row. -/
def csvRow (i : Nat) : Record := [("n", toString i)]

/-- Five-row export file. -/
def fiveRows : List Record := [csvRow 1, csvRow 2, csvRow 3, csvRow 4, csvRow 5]

/-- A transport that truncates after row 2 of 5 on the first two attempts and
succeeds fully on the third (the spec's recovery scenario). -/
def truncTransport : Nat → Attempt := fun k =>
  if k < 2 then ⟨fiveRows, some 2⟩ else ⟨fiveRows, none⟩

/-- A transport whose first attempt delivers all five rows untruncated. -/
def fullTransport : Nat → Attempt := fun _ => ⟨fiveRows, none⟩

/-- An export transport delivering an empty file (used where the transport is
irrelevant). -/
def emptyTransport : String → Nat → Attempt := fun _ _ => ⟨[], none⟩

/-- Poll responses `submitted, processing, processing, completed`, one poll
per second. -/
def pollEnvCompleted : PollEnv :=
  { poll := fun i =>
      if i = 0 then ⟨"submitted", none⟩
      else if i = 1 then ⟨"processing", none⟩
      else if i = 2 then ⟨"processing", none⟩
      else ⟨"completed", some "https://export"⟩,
    elapsed := fun i => i }

/-- A job stuck in `processing`, polled while 300 seconds pass between
successive observations. -/
def pollEnvStuck : PollEnv :=
  { poll := fun _ => ⟨"processing", none⟩, elapsed := fun i => 300 * i }

/-- Three successful pages whose third next-token repeats the second one. -/
def loopPages : Nat → Except Unit PageResp := fun i =>
  if i = 0 then .ok ⟨[csvRow 1], some "t1"⟩
  else if i = 1 then .ok ⟨[csvRow 2], some "t2"⟩
  else .ok ⟨[csvRow 3], some "t2"⟩

/-- Three successful pages, the third returning no next-token. -/
def finitePages : Nat → Except Unit PageResp := fun i =>
  if i = 0 then .ok ⟨[csvRow 1], some "t1"⟩
  else if i = 1 then .ok ⟨[csvRow 2], some "t2"⟩
  else .ok ⟨[csvRow 3], none⟩

/-- A request that fails with `SailthruClientError` on every attempt. -/
def failingPages : Nat → Except Unit PageResp := fun _ => .error ()

/-- A concrete sync configuration for the list-members stream: selected,
selective child sync on (as on `ListMemberStream`), numeric timestamp strings,
cutoff 100, replication key read from the "List Signup" field. -/
def cfgFix : SyncConfig :=
  { selected := true, selectivelySyncChildren := true,
    parse := parseNat, yesterday := 100,
    repValue := fun r => ((lookupField r "List Signup").bind parseNat).getD 0,
    statePartitionContext := [], stateMsgFrequency := 2, maxRecordLimit := none }

/-- The `cfgFix` with the stream deselected. -/
def cfgUnselected : SyncConfig := { cfgFix with selected := false }

/-- The `cfgUnselected` with a maximum record limit of 1. -/
def cfgUnselectedLimited : SyncConfig := { cfgUnselected with maxRecordLimit := some 1 }

/-- A member record with replication-key value 5 and no signup fields. -/
def memberRecord1 : Record := [("List Id", "1"), ("Profile Id", "p1"), ("List Signup", "5")]

/-- A member record with replication-key value 3 (< 5): out of order after
`memberRecord1`. -/
def memberRecord2 : Record := [("List Id", "1"), ("Profile Id", "p2"), ("List Signup", "3")]

/-- A member record whose `list_signup` (250) is after the cutoff (100). -/
def memberRecord3 : Record :=
  [("List Id", "1"), ("Profile Id", "p3"), ("List Signup", "7"), ("list_signup", "250")]

/-- A record missing the required "List Id" field. -/
def noListIdRecord : Record := [("Profile Id", "p")]

/-! ## Claim C7 — the signup-timestamp fallback chain -/

/-- C7 counterexample: for the record with only a (parseable) `signup_date`
field, the claimed chain would parse `signup_date` (giving 7), but the code's
chain hits the `KeyError` on the absent `profile_created_date` subscript and
defaults to the cutoff (100). -/
theorem deriveListSignup_chain_counterexample :
    deriveListSignup parseNat 100 [("signup_date", "7")] ≠
      deriveListSignupClaim parseNat 100 [("signup_date", "7")] := by
  decide

/-- C7 (amended): the derived signup timestamp is the explicit signup field if
present and non-empty; otherwise, when the profile-creation field is absent
the default (the cutoff) is used directly — the generic signup-date field is
consulted only when the profile-creation field is present but empty; parsing
failure or a missing consulted field defaults to the cutoff. -/
theorem deriveListSignup_matches_amended (parse : String → Option Nat) (yest : Nat)
    (r : Record) :
    deriveListSignup parse yest r = deriveListSignupAmended parse yest r := by
  unfold deriveListSignup deriveListSignupAmended nonEmptyField
  cases h1 : lookupField r "list_signup" with
  | none => simp
  | some v =>
    by_cases hv : v.length > 0
    · simp [hv]
    · simp [hv]

/-! ## Claim C2 — decoder truncation and retry -/

/-- C2 counterexample: with a transport that truncates after row 2 of 5 on the
first two attempts and succeeds fully on the third, the claimed behaviour
yields all 5 rows, but the code yields only the 2 rows decoded before the
first attempt's truncation (the in-generator handler swallows the
`ChunkedEncodingError`, so the backoff retry never re-fetches). -/
theorem process_job_csv_retry_counterexample :
    process_job_csv truncTransport [] id ≠ process_job_csv_claim truncTransport [] id := by
  decide

/-- C2 (amended): a mid-stream truncation is caught inside the decoding loop,
so the whole-fetch retry never occurs — every invocation consumes only the
first transport attempt, yields exactly the rows decoded before its
truncation, and stops without raising; when the first attempt is complete the
result agrees with the claimed behaviour. -/
theorem process_job_csv_first_attempt_only :
    (∀ (t : Nat → Attempt) (pp : List (String × String)) (post : Record → Record)
       (k : Nat), (t 0).truncAfter = some k →
       process_job_csv t pp post =
         ((t 0).fullRows.take k).map (fun r => post (updateRecord r pp)))
  ∧ (∀ (t : Nat → Attempt) (pp : List (String × String)) (post : Record → Record),
       (t 0).truncAfter = none →
       process_job_csv t pp post = process_job_csv_claim t pp post) := by
  constructor
  · intro t pp post k hk
    simp [process_job_csv, Attempt.delivered, hk]
  · intro t pp post h0
    simp [process_job_csv, process_job_csv_claim, Attempt.delivered, h0]

/-- Witness for the amended C2 theorem at the two fixture transports. -/
theorem process_job_csv_first_attempt_only_witness :
    process_job_csv truncTransport [] id =
      ((truncTransport 0).fullRows.take 2).map (fun r => id (updateRecord r []))
  ∧ process_job_csv fullTransport [] id = process_job_csv_claim fullTransport [] id :=
  ⟨process_job_csv_first_attempt_only.1 truncTransport [] id 2 (by decide),
   process_job_csv_first_attempt_only.2 fullTransport [] id (by decide)⟩

/-! ## Claim C5 — client-specific request errors in the pagination loop -/

/-- C5: the `except SailthruClientError` handler logs and `pass`es, leaving
`finished` false and the pagination token untouched, so the loop re-issues the
identical request; with a request that fails with the client-specific error on
every attempt the loop never terminates (for every fuel bound it is still
running), rather than abandoning the page and terminating early. -/
theorem client_error_never_terminates :
    ∀ (fuel i : Nat) (tok : Option String),
      requestRecordsLoop failingPages fuel i tok = ([], .outOfFuel) := by
  intro fuel
  induction fuel with
  | zero => intro i tok; rfl
  | succ f ih => intro i tok; simpa [requestRecordsLoop, failingPages] using ih (i + 1) tok

/-! ## Claim C3 — job polling -/

/-- Shifting a mapped initial segment: prepending `f i` to the values of
`f` at `i+1, …, i+n` gives the values of `f` at `i, …, i+n`. -/
theorem range_map_shift {α : Type} (f : Nat → α) (n i : Nat) :
    f i :: (List.range n).map (fun j => f (i + 1 + j)) =
      (List.range (n + 1)).map (fun j => f (i + j)) := by
  rw [List.range_succ_eq_map]
  simp only [List.map_cons, List.map_map, Nat.add_zero, List.cons.injEq, true_and]
  apply List.map_congr_left
  intro j _
  simp only [Function.comp_apply]
  congr 1
  omega

/-- Polling loop: if the k-th poll (counting from the loop position `i`) is the
first to report `completed` and every observation up to it is within the
timeout, the loop returns that response's export url having logged each
status. -/
theorem getJobUrlLoop_completed (env : PollEnv) (timeout : Nat) :
    ∀ (k i fuel : Nat) (status : String) (lastUrl : Option String),
      status ≠ "completed" →
      (∀ j, j < k → (env.poll (i + j)).status ≠ "completed" ∧ env.elapsed (i + j) ≤ timeout) →
      (env.poll (i + k)).status = "completed" →
      env.elapsed (i + k) ≤ timeout →
      k + 2 ≤ fuel →
      getJobUrlLoop env timeout fuel i status lastUrl =
        ((List.range (k + 1)).map (fun j => (env.poll (i + j)).status),
         .completed (env.poll (i + k)).export_url) := by
  intro k
  induction k with
  | zero =>
    intro i fuel status lastUrl hstat _ hdone helap hfuel
    simp only [Nat.add_zero] at hdone helap
    obtain ⟨f, rfl⟩ : ∃ f, fuel = f + 2 := ⟨fuel - 2, by omega⟩
    simp [getJobUrlLoop, hstat, hdone, Nat.not_lt.mpr helap, List.range_succ]
  | succ k ih =>
    intro i fuel status lastUrl hstat hpre hdone helap hfuel
    obtain ⟨f, rfl⟩ : ∃ f, fuel = f + 1 := ⟨fuel - 1, by omega⟩
    have h0 := hpre 0 (by omega)
    simp only [Nat.add_zero] at h0
    simp only [getJobUrlLoop, if_neg hstat]
    rw [if_neg (by omega)]
    have harith : i + 1 + k = i + (k + 1) := by omega
    have hrec := ih (i + 1) f (env.poll i).status (env.poll i).export_url h0.1
      (fun j hj => by
        have := hpre (j + 1) (by omega)
        constructor
        · simpa [Nat.add_assoc, Nat.add_comm 1 j] using this.1
        · simpa [Nat.add_assoc, Nat.add_comm 1 j] using this.2)
      (by rw [harith]; exact hdone)
      (by rw [harith]; exact helap)
      (by omega)
    rw [harith] at hrec
    rw [hrec]
    exact Prod.ext (range_map_shift (fun j => (env.poll j).status) _ i) rfl

/-- Polling loop: if no observation up to the m-th is `completed` while within
the timeout and the m-th observation exceeds the timeout, the loop raises the
job-timeout error with the m-th (last logged) status. -/
theorem getJobUrlLoop_timeout (env : PollEnv) (timeout : Nat) :
    ∀ (m i fuel : Nat) (status : String) (lastUrl : Option String),
      status ≠ "completed" →
      (∀ j, j < m → (env.poll (i + j)).status ≠ "completed" ∧ env.elapsed (i + j) ≤ timeout) →
      env.elapsed (i + m) > timeout →
      m + 1 ≤ fuel →
      getJobUrlLoop env timeout fuel i status lastUrl =
        ((List.range (m + 1)).map (fun j => (env.poll (i + j)).status),
         .timedOut (env.poll (i + m)).status) := by
  intro m
  induction m with
  | zero =>
    intro i fuel status lastUrl hstat _ hover hfuel
    simp only [Nat.add_zero] at hover
    obtain ⟨f, rfl⟩ : ∃ f, fuel = f + 1 := ⟨fuel - 1, by omega⟩
    simp only [getJobUrlLoop, if_neg hstat]
    rw [if_pos hover]
    simp [List.range_succ]
  | succ m ih =>
    intro i fuel status lastUrl hstat hpre hover hfuel
    obtain ⟨f, rfl⟩ : ∃ f, fuel = f + 1 := ⟨fuel - 1, by omega⟩
    have h0 := hpre 0 (by omega)
    simp only [Nat.add_zero] at h0
    simp only [getJobUrlLoop, if_neg hstat]
    rw [if_neg (by omega)]
    have harith : i + 1 + m = i + (m + 1) := by omega
    have hrec := ih (i + 1) f (env.poll i).status (env.poll i).export_url h0.1
      (fun j hj => by
        have := hpre (j + 1) (by omega)
        constructor
        · simpa [Nat.add_assoc, Nat.add_comm 1 j] using this.1
        · simpa [Nat.add_assoc, Nat.add_comm 1 j] using this.2)
      (by rw [harith]; exact hover)
      (by omega)
    rw [harith] at hrec
    rw [hrec]
    exact Prod.ext (range_map_shift (fun j => (env.poll j).status) _ i) rfl

/-- C3: `get_job_url` polls the job endpoint; when a poll reports `completed`
while the elapsed wall-clock measure is within the timeout (and every earlier
in-window observation was not `completed`), it returns that response's export
url after logging every observed status; when no in-window observation
reaches `completed` and an observation exceeds the timeout, it raises the
job-timeout error carrying (and logging last) the last observed status. -/
theorem get_job_url_poll_behaviour :
    (∀ (env : PollEnv) (timeout k fuel : Nat),
       (∀ j, j < k → (env.poll j).status ≠ "completed" ∧ env.elapsed j ≤ timeout) →
       (env.poll k).status = "completed" →
       env.elapsed k ≤ timeout →
       k + 2 ≤ fuel →
       get_job_url env timeout fuel =
         ((List.range (k + 1)).map (fun j => (env.poll j).status),
          .completed (env.poll k).export_url))
  ∧ (∀ (env : PollEnv) (timeout m fuel : Nat),
       (∀ j, j < m → (env.poll j).status ≠ "completed" ∧ env.elapsed j ≤ timeout) →
       env.elapsed m > timeout →
       m + 1 ≤ fuel →
       get_job_url env timeout fuel =
         ((List.range (m + 1)).map (fun j => (env.poll j).status),
          .timedOut (env.poll m).status)) := by
  constructor
  · intro env timeout k fuel hpre hdone helap hfuel
    simpa using getJobUrlLoop_completed env timeout k 0 fuel "" none (by decide)
      (by simpa using hpre) (by simpa using hdone) (by simpa using helap) hfuel
  · intro env timeout m fuel hpre hover hfuel
    simpa using getJobUrlLoop_timeout env timeout m 0 fuel "" none (by decide)
      (by simpa using hpre) (by simpa using hover) hfuel

/-- Witness for C3 at the fixture polling environments: the
`submitted, processing, processing, completed` sequence under a 600s timeout
returns the export location; the stuck job times out with the last status. -/
theorem get_job_url_poll_behaviour_witness :
    get_job_url pollEnvCompleted 600 10 =
      ((List.range 4).map (fun j => (pollEnvCompleted.poll j).status),
       .completed (pollEnvCompleted.poll 3).export_url)
  ∧ get_job_url pollEnvStuck 600 10 =
      ((List.range 4).map (fun j => (pollEnvStuck.poll j).status),
       .timedOut (pollEnvStuck.poll 3).status) :=
  ⟨get_job_url_poll_behaviour.1 pollEnvCompleted 600 3 10 (by decide) (by decide)
     (by decide) (by decide),
   get_job_url_poll_behaviour.2 pollEnvStuck 600 3 10 (by decide) (by decide) (by decide)⟩

/-! ## Claim C4 — pagination-loop detection -/

/-- The pagination loop under the `loopsAt` chain condition: all records up to
and including the looping page are yielded, then the loop error is raised. -/
theorem requestRecordsLoop_loops (pages : Nat → Except Unit PageResp) :
    ∀ (j i fuel : Nat) (tok : Option String),
      loopsAt pages i tok j = true → j < fuel →
      requestRecordsLoop pages fuel i tok = (pageRecords pages i (j + 1), .loopError) := by
  intro j
  induction j with
  | zero =>
    intro i fuel tok h hf
    obtain ⟨f, rfl⟩ : ∃ f, fuel = f + 1 := ⟨fuel - 1, by omega⟩
    unfold loopsAt at h
    cases hp : pages i with
    | error e => rw [hp] at h; cases h
    | ok pg =>
      rw [hp] at h
      simp only [Bool.and_eq_true, beq_iff_eq] at h
      simp only [requestRecordsLoop, hp]
      rw [if_pos ⟨h.1, h.2⟩]
      simp [pageRecords, hp]
  | succ j ih =>
    intro i fuel tok h hf
    obtain ⟨f, rfl⟩ : ∃ f, fuel = f + 1 := ⟨fuel - 1, by omega⟩
    unfold loopsAt at h
    cases hp : pages i with
    | error e => rw [hp] at h; cases h
    | ok pg =>
      rw [hp] at h
      simp only [Bool.and_eq_true, bne_iff_ne] at h
      obtain ⟨⟨hs, hne⟩, hrest⟩ := h
      simp only [requestRecordsLoop, hp]
      rw [if_neg (fun hand => hne hand.2)]
      rw [if_neg (by intro hnone; rw [hnone] at hs; cases hs)]
      rw [ih (i + 1) f pg.nextToken hrest (by omega)]
      simp [pageRecords, hp]

/-- The pagination loop under the `finishesAt` chain condition: all records of
the pages up to the token-less page are yielded and the loop ends normally. -/
theorem requestRecordsLoop_finishes (pages : Nat → Except Unit PageResp) :
    ∀ (j i fuel : Nat) (tok : Option String),
      finishesAt pages i tok j = true → j < fuel →
      requestRecordsLoop pages fuel i tok = (pageRecords pages i (j + 1), .finished) := by
  intro j
  induction j with
  | zero =>
    intro i fuel tok h hf
    obtain ⟨f, rfl⟩ : ∃ f, fuel = f + 1 := ⟨fuel - 1, by omega⟩
    unfold finishesAt at h
    cases hp : pages i with
    | error e => rw [hp] at h; cases h
    | ok pg =>
      rw [hp] at h
      simp only [beq_iff_eq] at h
      simp only [requestRecordsLoop, hp]
      rw [if_neg (by intro hand; rw [h] at hand; cases hand.1)]
      rw [if_pos h]
      simp [pageRecords, hp]
  | succ j ih =>
    intro i fuel tok h hf
    obtain ⟨f, rfl⟩ : ∃ f, fuel = f + 1 := ⟨fuel - 1, by omega⟩
    unfold finishesAt at h
    cases hp : pages i with
    | error e => rw [hp] at h; cases h
    | ok pg =>
      rw [hp] at h
      simp only [Bool.and_eq_true, bne_iff_ne] at h
      obtain ⟨⟨hs, hne⟩, hrest⟩ := h
      simp only [requestRecordsLoop, hp]
      rw [if_neg (fun hand => hne hand.2)]
      rw [if_neg (by intro hnone; rw [hnone] at hs; cases hs)]
      rw [ih (i + 1) f pg.nextToken hrest (by omega)]
      simp [pageRecords, hp]

/-- C4 counterexample: for the page sequence whose third next-token repeats
the second one, the fetch yields the records of pages 1–3 — the looping
page 3's record is yielded (just before the loop error is raised), whereas
the claim predicts only pages 1–2's records. -/
theorem pagination_loop_counterexample :
    request_records loopPages 10 = ([csvRow 1, csvRow 2, csvRow 3], .loopError) ∧
    (request_records loopPages 10).1 ≠ [csvRow 1, csvRow 2] := by
  constructor
  · decide
  · decide

/-- C4 (amended): when the next-page token extracted after a page equals the
immediately prior token, the fetch raises the fatal pagination-loop error
after yielding the records of every page up to and including the looping page
(whose records are yielded before the token comparison), and fetches no
further page; otherwise it continues until a page returns no next token,
yielding every page's records. -/
theorem pagination_loop_detection :
    (∀ (pages : Nat → Except Unit PageResp) (j fuel : Nat),
       loopsAt pages 0 none j = true → j < fuel →
       request_records pages fuel = (pageRecords pages 0 (j + 1), .loopError))
  ∧ (∀ (pages : Nat → Except Unit PageResp) (j fuel : Nat),
       finishesAt pages 0 none j = true → j < fuel →
       request_records pages fuel = (pageRecords pages 0 (j + 1), .finished)) := by
  constructor
  · intro pages j fuel h hf
    exact requestRecordsLoop_loops pages j 0 fuel none h hf
  · intro pages j fuel h hf
    exact requestRecordsLoop_finishes pages j 0 fuel none h hf

/-- Witness for the amended C4 theorem at the two page fixtures. -/
theorem pagination_loop_detection_witness :
    request_records loopPages 10 = (pageRecords loopPages 0 3, .loopError)
  ∧ request_records finitePages 10 = (pageRecords finitePages 0 3, .finished) :=
  ⟨pagination_loop_detection.1 loopPages 2 10 (by decide) (by omega),
   pagination_loop_detection.2 finitePages 2 10 (by decide) (by omega)⟩

/-! ## Claim C6 — job failures while obtaining a context's records -/

/-- C6 counterexample: when the export job's polling ends in the job timeout,
`get_records` does not yield an empty record set for the context — the
`SailthruJobTimeoutError` propagates out of `_sync_records`, so the remaining
context (whose record is `memberRecord1`) is never processed, contrary to the
claim that the sync engine catches the failure and continues. -/
theorem job_timeout_counterexample :
    runContexts cfgFix 0
      [(none, listMemberGetRecords (.error .timeout) emptyTransport id []),
       (none, .ok [memberRecord1])] =
      ([.startingReplicationValue], .error .jobTimeout) ∧
    SyncEvent.recordMessage memberRecord1 ∉
      (runContexts cfgFix 0
        [(none, listMemberGetRecords (.error .timeout) emptyTransport id []),
         (none, .ok [memberRecord1])]).1 := by
  constructor
  · rfl
  · decide

/-- C6 (amended): only the transient connectivity failure (`MaxRetryError`)
during polling is caught by `get_records`: the context is skipped after a log,
contributes no records, and the sync continues with the remaining contexts.
The job timeout is not caught: `SailthruJobTimeoutError` propagates out of the
record iteration, aborting the sync (remaining contexts are not processed). -/
theorem job_failure_handling :
    (∀ (t : String → Nat → Attempt) (post : Record → Record)
       (pp : List (String × String)),
       listMemberGetRecords (.error .maxRetry) t post pp = .ok [])
  ∧ (∀ (t : String → Nat → Attempt) (post : Record → Record)
       (pp : List (String × String)),
       listMemberGetRecords (.error .timeout) t post pp = .error .jobTimeout)
  ∧ (∀ (cfg : SyncConfig) (n : Nat) (bm : Option Nat)
       (rest : List (Option Nat × Except TapError (List Record)))
       (t : String → Nat → Attempt) (post : Record → Record)
       (pp : List (String × String)),
       runContexts cfg n ((bm, listMemberGetRecords (.error .maxRetry) t post pp) :: rest) =
         ([.startingReplicationValue, .finalizePartition] ++ (runContexts cfg n rest).1,
          (runContexts cfg n rest).2))
  ∧ (∀ (cfg : SyncConfig) (n : Nat) (bm : Option Nat)
       (rest : List (Option Nat × Except TapError (List Record)))
       (t : String → Nat → Attempt) (post : Record → Record)
       (pp : List (String × String)),
       runContexts cfg n ((bm, listMemberGetRecords (.error .timeout) t post pp) :: rest) =
         ([.startingReplicationValue], .error .jobTimeout)) := by
  refine ⟨fun t post pp => rfl, fun t post pp => rfl, ?_, fun cfg n bm rest t post pp => rfl⟩
  intro cfg n bm rest t post pp
  simp [runContexts, listMemberGetRecords, runRecords]

/-! ## Sync-step helper lemmas -/

/-- A record with both required fields yields a child context. -/
theorem get_child_context_ok_of_required (r : Record) (h : hasRequiredFields r = true) :
    ∃ c, get_child_context r = .ok c := by
  unfold hasRequiredFields at h
  unfold get_child_context
  cases h1 : lookupField r "List Id" with
  | none => rw [h1] at h; simp at h
  | some lid =>
    cases h2 : lookupField r "Profile Id" with
    | none => rw [h1, h2] at h; simp at h
    | some uid => exact ⟨_, rfl⟩

/-- A record missing a required field makes `get_child_context` raise. -/
theorem get_child_context_error_of_missing (r : Record) (h : hasRequiredFields r = false) :
    get_child_context r = .error .keyError := by
  unfold hasRequiredFields at h
  unfold get_child_context
  cases h1 : lookupField r "List Id" with
  | none => rfl
  | some lid =>
    cases h2 : lookupField r "Profile Id" with
    | none => rfl
    | some uid => rw [h1, h2] at h; simp at h

/-- The map `emittedRecords` distributes over append. -/
theorem emittedRecords_append (a b : List SyncEvent) :
    emittedRecords (a ++ b) = emittedRecords a ++ emittedRecords b := by
  simp [emittedRecords, List.filterMap_append]

/-- The record messages in one selected step's emission list: exactly the
merged record, whatever the child-sync and state-message conditions. -/
theorem emittedRecords_emit_list (c1 : Prop) [Decidable c1] (ctx : ChildContext)
    (c2 : Prop) [Decidable c2] (rec : Record) :
    emittedRecords ((if c1 then [SyncEvent.childSync ctx] else []) ++
      (if c2 then [SyncEvent.stateMessage] else []) ++ [SyncEvent.recordMessage rec]) =
      [rec] := by
  split <;> split <;> simp [emittedRecords]

/-- The events of one step always start with the conditional child-sync event,
and no later event of the step is a child sync. -/
theorem syncStep_events (cfg : SyncConfig) (st : LoopState) (r : Record)
    (ctx : ChildContext) (hc : get_child_context r = .ok ctx) :
    ∃ tl : List SyncEvent,
      (syncStep cfg st r).1 =
        (if cfg.selectivelySyncChildren = true ∧
            deriveListSignup cfg.parse cfg.yesterday (mergedRecord cfg r) > cfg.yesterday
         then [SyncEvent.childSync ctx] else []) ++ tl ∧
      ∀ c : ChildContext, SyncEvent.childSync c ∉ tl := by
  unfold syncStep
  rw [hc]
  by_cases hl : limitHit cfg st.recordCount
  · exact ⟨[], by simp [hl, mergedRecord], by simp⟩
  · by_cases hs : cfg.selected
    · refine ⟨(if ((st.recordCount : Int) - 1) % (cfg.stateMsgFrequency : Int) = 0
          then [SyncEvent.stateMessage] else []) ++
          [SyncEvent.recordMessage (mergedRecord cfg r)], ?_, ?_⟩
      · cases hb : st.bookmark with
        | none => simp [hl, hs, mergedRecord, List.append_assoc]
        | some b =>
          by_cases hv : cfg.repValue (mergeContextInto cfg.statePartitionContext r) < b <;>
            simp [hl, hs, hv, mergedRecord, List.append_assoc]
      · intro c
        split <;> simp
    · exact ⟨[], by simp [hl, hs, mergedRecord], by simp⟩

/-- The full value of one selected, below-limit step: the emission list and
either the sort error (on a replication-key regression) or the advanced
state. -/
theorem syncStep_selected (cfg : SyncConfig) (st : LoopState) (r : Record)
    (ctx : ChildContext) (hsel : cfg.selected = true)
    (hc : get_child_context r = .ok ctx)
    (hlim : limitHit cfg st.recordCount = false) :
    syncStep cfg st r =
      ((if cfg.selectivelySyncChildren = true ∧
           deriveListSignup cfg.parse cfg.yesterday (mergedRecord cfg r) > cfg.yesterday
        then [SyncEvent.childSync ctx] else []) ++
       (if ((st.recordCount : Int) - 1) % (cfg.stateMsgFrequency : Int) = 0
        then [SyncEvent.stateMessage] else []) ++
       [SyncEvent.recordMessage (mergedRecord cfg r)],
       if violates cfg st.bookmark r = true then Except.error TapError.invalidSort
       else .ok ⟨st.recordCount + 1, st.partitionRecordCount + 1,
                 some (cfg.repValue (mergedRecord cfg r))⟩) := by
  unfold syncStep violates
  rw [hc]
  cases hb : st.bookmark with
  | none => simp [hlim, hsel, mergedRecord]
  | some b =>
    by_cases hv : cfg.repValue (mergeContextInto cfg.statePartitionContext r) < b <;>
      simp [hlim, hsel, hv, mergedRecord]

/-- The full value of one unselected, below-limit step: only the conditional
child-sync event; counters advance and the bookmark is untouched. -/
theorem syncStep_unselected (cfg : SyncConfig) (st : LoopState) (r : Record)
    (ctx : ChildContext) (hsel : cfg.selected = false)
    (hc : get_child_context r = .ok ctx)
    (hlim : limitHit cfg st.recordCount = false) :
    syncStep cfg st r =
      ((if cfg.selectivelySyncChildren = true ∧
           deriveListSignup cfg.parse cfg.yesterday (mergedRecord cfg r) > cfg.yesterday
        then [SyncEvent.childSync ctx] else []),
       .ok ⟨st.recordCount + 1, st.partitionRecordCount + 1, st.bookmark⟩) := by
  unfold syncStep
  rw [hc]
  simp [hlim, hsel, mergedRecord]

/-- A step at the record limit: the conditional child-sync event is still
emitted, then the limit error aborts. -/
theorem syncStep_at_limit (cfg : SyncConfig) (st : LoopState) (r : Record)
    (ctx : ChildContext) (hc : get_child_context r = .ok ctx)
    (hlim : limitHit cfg st.recordCount = true) :
    syncStep cfg st r =
      ((if cfg.selectivelySyncChildren = true ∧
           deriveListSignup cfg.parse cfg.yesterday (mergedRecord cfg r) > cfg.yesterday
        then [SyncEvent.childSync ctx] else []),
       .error .maxRecords) := by
  unfold syncStep
  rw [hc]
  simp [hlim, mergedRecord]

/-- A step on a record missing a required field: the `KeyError` propagates
before any effect. -/
theorem syncStep_missing_required (cfg : SyncConfig) (st : LoopState) (r : Record)
    (h : hasRequiredFields r = false) :
    syncStep cfg st r = ([], .error .keyError) := by
  unfold syncStep
  rw [get_child_context_error_of_missing r h]

/-! ## Claim C1 — ordering violations in the record loop -/

/-- C1 counterexample: with records carrying replication-key values 5 then 3,
the loop emits the offending record's message and only then raises the
ordering error — `_write_record_message` (line 561) runs before
`_increment_stream_state` (line 563) — contrary to the claim that the error
is raised before the offending record is emitted. -/
theorem out_of_order_emits_offender :
    runRecords cfgFix ⟨0, 0, none⟩ [memberRecord1, memberRecord2] =
      ([.recordMessage memberRecord1, .stateMessage, .recordMessage memberRecord2],
       .error .invalidSort) ∧
    SyncEvent.recordMessage memberRecord2 ∈
      (runRecords cfgFix ⟨0, 0, none⟩ [memberRecord1, memberRecord2]).1 := by
  exact ⟨rfl, by decide⟩

/-- C1 (amended): for a selected stream, when a record's replication-key value
is strictly below the bookmark established by its predecessors, the loop
emits every earlier record exactly once *and also the offending record
itself*, then raises the ordering-violation error (no later record is
processed). -/
theorem out_of_order_abort (cfg : SyncConfig) :
    ∀ (pre : List Record) (st : LoopState) (bad : Record) (rest : List Record),
      cfg.selected = true → cfg.maxRecordLimit = none →
      (∀ r ∈ pre, hasRequiredFields r = true) →
      hasRequiredFields bad = true →
      noViolation cfg st.bookmark pre = true →
      violates cfg (bookmarkAfter cfg st.bookmark pre) bad = true →
      (runRecords cfg st (pre ++ bad :: rest)).2 = .error .invalidSort ∧
      emittedRecords (runRecords cfg st (pre ++ bad :: rest)).1 =
        (pre ++ [bad]).map (mergedRecord cfg) := by
  intro pre
  induction pre with
  | nil =>
    intro st bad rest hsel hnone hkeys hbadk hnov hviol
    obtain ⟨ctx, hc⟩ := get_child_context_ok_of_required bad hbadk
    have hlim : limitHit cfg st.recordCount = false := by simp [limitHit, hnone]
    have hstep := syncStep_selected cfg st bad ctx hsel hc hlim
    simp only [bookmarkAfter] at hviol
    rw [hviol, if_pos rfl] at hstep
    constructor
    · simp [runRecords, hstep]
    · simp only [List.nil_append, runRecords, hstep]
      rw [emittedRecords_emit_list]
      simp
  | cons p ps ih =>
    intro st bad rest hsel hnone hkeys hbadk hnov hviol
    obtain ⟨ctx, hc⟩ := get_child_context_ok_of_required p (hkeys p (by simp))
    have hlim : limitHit cfg st.recordCount = false := by simp [limitHit, hnone]
    have hstep := syncStep_selected cfg st p ctx hsel hc hlim
    simp only [noViolation, Bool.and_eq_true, Bool.not_eq_true'] at hnov
    obtain ⟨hvp, hnov'⟩ := hnov
    have hff : ¬(false = true) := by simp
    rw [hvp, if_neg hff] at hstep
    simp only [bookmarkAfter] at hviol
    have hrec := ih ⟨st.recordCount + 1, st.partitionRecordCount + 1,
        some (cfg.repValue (mergedRecord cfg p))⟩ bad rest hsel hnone
      (fun x hx => hkeys x (by simp [hx])) hbadk hnov' hviol
    constructor
    · simp only [List.cons_append, runRecords, hstep]
      exact hrec.1
    · simp only [List.cons_append, runRecords, hstep]
      rw [emittedRecords_append, emittedRecords_emit_list]
      simp [hrec.2]

/-- Witness for the amended C1 theorem: records with replication-key values
5 then 3 under the fixture configuration. -/
theorem out_of_order_abort_witness :
    (runRecords cfgFix ⟨0, 0, none⟩ ([memberRecord1] ++ memberRecord2 :: [])).2 =
      .error .invalidSort ∧
    emittedRecords (runRecords cfgFix ⟨0, 0, none⟩ ([memberRecord1] ++ memberRecord2 :: [])).1 =
      ([memberRecord1] ++ [memberRecord2]).map (mergedRecord cfgFix) :=
  out_of_order_abort cfgFix [memberRecord1] ⟨0, 0, none⟩ memberRecord2 []
    rfl rfl (by decide) (by decide) (by decide) (by decide)

/-! ## Claim C8 — selective child sync -/

/-- C8: for a record whose child context derives successfully, the step's
event list contains the child-sync event exactly when selective child sync is
enabled and the derived signup timestamp is strictly after the cutoff; the
event carries the derived child context and precedes every other event of the
step (in particular the record's own emission). -/
theorem selective_child_sync_trigger (cfg : SyncConfig) (st : LoopState) (r : Record)
    (ctx : ChildContext) (hc : get_child_context r = .ok ctx) :
    ((SyncEvent.childSync ctx ∈ (syncStep cfg st r).1) ↔
       (cfg.selectivelySyncChildren = true ∧
        deriveListSignup cfg.parse cfg.yesterday (mergedRecord cfg r) > cfg.yesterday))
  ∧ (∀ c : ChildContext, SyncEvent.childSync c ∈ (syncStep cfg st r).1 → c = ctx)
  ∧ ((cfg.selectivelySyncChildren = true ∧
        deriveListSignup cfg.parse cfg.yesterday (mergedRecord cfg r) > cfg.yesterday) →
      ∃ tl, (syncStep cfg st r).1 = SyncEvent.childSync ctx :: tl ∧
        ∀ c : ChildContext, SyncEvent.childSync c ∉ tl) := by
  obtain ⟨tl, hev, htl⟩ := syncStep_events cfg st r ctx hc
  refine ⟨?_, ?_, ?_⟩
  · rw [hev]
    by_cases htr : cfg.selectivelySyncChildren = true ∧
        deriveListSignup cfg.parse cfg.yesterday (mergedRecord cfg r) > cfg.yesterday
    · simp [htr]
    · simp only [if_neg htr, List.nil_append]
      exact iff_of_false (htl ctx) htr
  · intro c hcmem
    rw [hev] at hcmem
    rcases List.mem_append.mp hcmem with hm | hm
    · by_cases htr : cfg.selectivelySyncChildren = true ∧
          deriveListSignup cfg.parse cfg.yesterday (mergedRecord cfg r) > cfg.yesterday
      · rw [if_pos htr] at hm
        simpa using hm
      · rw [if_neg htr] at hm
        simp at hm
    · exact absurd hm (htl c)
  · intro htr
    refine ⟨tl, ?_, htl⟩
    rw [hev, if_pos htr]
    rfl

/-- Witness for C8 at a record whose `list_signup` (250) is after the cutoff
(100). -/
theorem selective_child_sync_trigger_witness :
    ((SyncEvent.childSync ⟨"1", "p3", none⟩ ∈ (syncStep cfgFix ⟨0, 0, none⟩ memberRecord3).1) ↔
       (cfgFix.selectivelySyncChildren = true ∧
        deriveListSignup cfgFix.parse cfgFix.yesterday (mergedRecord cfgFix memberRecord3) >
          cfgFix.yesterday))
  ∧ (∀ c : ChildContext,
       SyncEvent.childSync c ∈ (syncStep cfgFix ⟨0, 0, none⟩ memberRecord3).1 →
       c = ⟨"1", "p3", none⟩)
  ∧ ((cfgFix.selectivelySyncChildren = true ∧
        deriveListSignup cfgFix.parse cfgFix.yesterday (mergedRecord cfgFix memberRecord3) >
          cfgFix.yesterday) →
      ∃ tl, (syncStep cfgFix ⟨0, 0, none⟩ memberRecord3).1 =
          SyncEvent.childSync ⟨"1", "p3", none⟩ :: tl ∧
        ∀ c : ChildContext, SyncEvent.childSync c ∉ tl) :=
  selective_child_sync_trigger cfgFix ⟨0, 0, none⟩ memberRecord3 ⟨"1", "p3", none⟩ rfl

/-! ## Claim C9 — failed child-context derivation -/

/-- C9 counterexample: a record missing the required "List Id" field makes the
whole parent sync abort with the uncaught `KeyError` — the following record
(`memberRecord1`) is never processed or emitted, contrary to the claim that
only that record's child invocation is aborted and the parent continues. -/
theorem missing_required_field_counterexample :
    runRecords cfgFix ⟨0, 0, none⟩ [noListIdRecord, memberRecord1] =
      ([], .error .keyError) ∧
    SyncEvent.recordMessage memberRecord1 ∉
      (runRecords cfgFix ⟨0, 0, none⟩ [noListIdRecord, memberRecord1]).1 := by
  exact ⟨rfl, by decide⟩

/-- C9 (amended): only the optional list-name lookups of the child-context
derivation are protected — a record carrying "List Id" and "Profile Id" but no
name field still produces a child context (without `list_name`) and nothing is
aborted; a record missing a required field raises an uncaught `KeyError` that
aborts the parent context's sync before any effect of that record, with no
further record processed. -/
theorem missing_required_field_aborts_parent :
    (∀ (cfg : SyncConfig) (st : LoopState) (r : Record) (rest : List Record),
       hasRequiredFields r = false →
       runRecords cfg st (r :: rest) = ([], .error .keyError))
  ∧ (∀ (r : Record) (lid uid : String),
       lookupField r "List Id" = some lid →
       lookupField r "Profile Id" = some uid →
       lookupField r "List Name" = none →
       lookupField r "Name" = none →
       get_child_context r = .ok ⟨lid, uid, none⟩) := by
  constructor
  · intro cfg st r rest h
    simp [runRecords, syncStep_missing_required cfg st r h]
  · intro r lid uid h1 h2 h3 h4
    unfold get_child_context
    rw [h1, h2, h3, h4]

/-- Witness for the amended C9 theorem: the record without "List Id" aborts
the run; `memberRecord1` (which has no name field) derives its child context. -/
theorem missing_required_field_aborts_parent_witness :
    runRecords cfgFix ⟨0, 0, none⟩ (noListIdRecord :: [memberRecord1]) =
      ([], .error .keyError) ∧
    get_child_context memberRecord1 = .ok ⟨"1", "p1", none⟩ :=
  ⟨missing_required_field_aborts_parent.1 cfgFix ⟨0, 0, none⟩ noListIdRecord [memberRecord1]
     (by decide),
   missing_required_field_aborts_parent.2 memberRecord1 "1" "p1" rfl rfl rfl rfl⟩

/-! ## Claim C10 — the unselected sync loop -/

/-- The per-record effect the unselected loop still performs: the child-sync
event for records whose derived context succeeds and whose derived signup
timestamp passes the cutoff. -/
def childSyncEvent (cfg : SyncConfig) (r : Record) : Option SyncEvent :=
  match get_child_context r with
  | .ok c =>
    if cfg.selectivelySyncChildren = true ∧
       deriveListSignup cfg.parse cfg.yesterday (mergedRecord cfg r) > cfg.yesterday
    then some (SyncEvent.childSync c) else none
  | .error _ => none

/-- The unselected record loop with no record limit: events are exactly the
conditional child syncs, the record count still advances by every fetched
record, and the bookmark is untouched. -/
theorem runRecords_unselected (cfg : SyncConfig) (hsel : cfg.selected = false) :
    ∀ (records : List Record) (st : LoopState),
      cfg.maxRecordLimit = none →
      (∀ r ∈ records, hasRequiredFields r = true) →
      runRecords cfg st records =
        (records.filterMap (childSyncEvent cfg),
         .ok ⟨st.recordCount + records.length, st.partitionRecordCount + records.length,
              st.bookmark⟩) := by
  intro records
  induction records with
  | nil =>
    intro st hnone hkeys
    simp [runRecords]
  | cons r rs ih =>
    intro st hnone hkeys
    obtain ⟨ctx, hc⟩ := get_child_context_ok_of_required r (hkeys r (by simp))
    have hlim : limitHit cfg st.recordCount = false := by simp [limitHit, hnone]
    have hstep := syncStep_unselected cfg st r ctx hsel hc hlim
    have hc1 : st.recordCount + (r :: rs).length = st.recordCount + 1 + rs.length := by
      rw [List.length_cons]
      omega
    have hc2 : st.partitionRecordCount + (r :: rs).length =
        st.partitionRecordCount + 1 + rs.length := by
      rw [List.length_cons]
      omega
    rw [hc1, hc2]
    simp only [runRecords, hstep]
    rw [ih ⟨st.recordCount + 1, st.partitionRecordCount + 1, st.bookmark⟩ hnone
      (fun x hx => hkeys x (by simp [hx]))]
    have hev : childSyncEvent cfg r =
        if cfg.selectivelySyncChildren = true ∧
           deriveListSignup cfg.parse cfg.yesterday (mergedRecord cfg r) > cfg.yesterday
        then some (SyncEvent.childSync ctx) else none := by
      unfold childSyncEvent
      rw [hc]
    rw [List.filterMap_cons, hev]
    by_cases htr : cfg.selectivelySyncChildren = true ∧
        deriveListSignup cfg.parse cfg.yesterday (mergedRecord cfg r) > cfg.yesterday
    · rw [if_pos htr, if_pos htr]
      rfl
    · rw [if_neg htr, if_neg htr]
      rfl

/-- The unselected record loop still enforces the record limit: as soon as the
already-processed count reaches the configured maximum while records remain,
the run aborts with the limit error. -/
theorem runRecords_unselected_limit (cfg : SyncConfig) (hsel : cfg.selected = false) :
    ∀ (records : List Record) (st : LoopState) (l : Nat),
      cfg.maxRecordLimit = some l →
      st.recordCount ≤ l → l < st.recordCount + records.length →
      (∀ r ∈ records, hasRequiredFields r = true) →
      (runRecords cfg st records).2 = .error .maxRecords := by
  intro records
  induction records with
  | nil =>
    intro st l hl hle hlt hkeys
    simp only [List.length_nil] at hlt
    omega
  | cons r rs ih =>
    intro st l hl hle hlt hkeys
    obtain ⟨ctx, hc⟩ := get_child_context_ok_of_required r (hkeys r (by simp))
    by_cases hhit : l ≤ st.recordCount
    · have hlim : limitHit cfg st.recordCount = true := by
        simp only [limitHit, hl, ge_iff_le]
        exact decide_eq_true hhit
      have hstep := syncStep_at_limit cfg st r ctx hc hlim
      simp [runRecords, hstep]
    · have hlim : limitHit cfg st.recordCount = false := by
        simp only [limitHit, hl, ge_iff_le]
        exact decide_eq_false hhit
      have hstep := syncStep_unselected cfg st r ctx hsel hc hlim
      simp only [runRecords, hstep]
      have h1 : st.recordCount + 1 ≤ l := by omega
      have h2 : l < st.recordCount + 1 + rs.length := by
        simp only [List.length_cons] at hlt
        omega
      exact ih ⟨st.recordCount + 1, st.partitionRecordCount + 1, st.bookmark⟩ l hl h1 h2
        (fun x hx => hkeys x (by simp [hx]))

/-- C10: when the list-members stream is not selected, the record loop still
derives child contexts, evaluates the signup cutoff and emits the recursive
child syncs, counts every fetched record, and enforces the maximum record
limit against that count; only the record messages, interim state messages
and bookmark advancement are suppressed — the loop's events are exactly the
conditional child syncs and the context's bookmark leaves record processing
unchanged. -/
theorem unselected_sync_frame :
    (∀ (cfg : SyncConfig) (st : LoopState) (records : List Record),
       cfg.selected = false → cfg.maxRecordLimit = none →
       (∀ r ∈ records, hasRequiredFields r = true) →
       runRecords cfg st records =
         (records.filterMap (childSyncEvent cfg),
          .ok ⟨st.recordCount + records.length, st.partitionRecordCount + records.length,
               st.bookmark⟩))
  ∧ (∀ (cfg : SyncConfig) (st : LoopState) (records : List Record) (l : Nat),
       cfg.selected = false → cfg.maxRecordLimit = some l →
       st.recordCount ≤ l → l < st.recordCount + records.length →
       (∀ r ∈ records, hasRequiredFields r = true) →
       (runRecords cfg st records).2 = .error .maxRecords) :=
  ⟨fun cfg st records hsel => runRecords_unselected cfg hsel records st,
   fun cfg st records l hsel => runRecords_unselected_limit cfg hsel records st l⟩

/-- Witness for C10: the unselected fixture run derives and triggers the child
sync for the post-cutoff record while leaving the bookmark at 50, and the
limited variant aborts on the second record. -/
theorem unselected_sync_frame_witness :
    runRecords cfgUnselected ⟨0, 0, some 50⟩ [memberRecord1, memberRecord3] =
      ([memberRecord1, memberRecord3].filterMap (childSyncEvent cfgUnselected),
       .ok ⟨0 + 2, 0 + 2, some 50⟩)
  ∧ (runRecords cfgUnselectedLimited ⟨0, 0, none⟩ [memberRecord1, memberRecord3]).2 =
      .error .maxRecords :=
  ⟨unselected_sync_frame.1 cfgUnselected ⟨0, 0, some 50⟩ [memberRecord1, memberRecord3]
     rfl rfl (by decide),
   unselected_sync_frame.2 cfgUnselectedLimited ⟨0, 0, none⟩ [memberRecord1, memberRecord3] 1
     rfl rfl (by decide) (by decide) (by decide)⟩

end TapSailthru
